import Mathlib

/-!
Verification development for the python-manta replay engine.

The definitions below shallowly embed the parts of the repository that the
claims concern: the `RuneType` enum of `src/python_manta/manta_python.py`,
and the tick-indexed random-access engine (index building, keyframe lookup,
snapshot assembly, range extraction, event synthesis, result aggregation)
whose behaviour is documented in the specification and exercised by the
test-suite under `tests/python_manta/parser/`.
-/

/-- The eight rune kinds of `RuneType` in `manta_python.py`. -/
inductive RuneType where
  | DOUBLE_DAMAGE
  | HASTE
  | ILLUSION
  | INVISIBILITY
  | REGENERATION
  | ARCANE
  | SHIELD
  | WATER
deriving DecidableEq, Repr

/-- The string value carried by each `RuneType` member (its combat-log
modifier name), exactly as in the Python enum. -/
def RuneType.value : RuneType → String
  | .DOUBLE_DAMAGE => "modifier_rune_doubledamage"
  | .HASTE => "modifier_rune_haste"
  | .ILLUSION => "modifier_rune_illusion"
  | .INVISIBILITY => "modifier_rune_invis"
  | .REGENERATION => "modifier_rune_regen"
  | .ARCANE => "modifier_rune_arcane"
  | .SHIELD => "modifier_rune_shield"
  | .WATER => "modifier_rune_water"

/-- Iteration order of the Python enum (`for rune in cls`). -/
def RuneType.members : List RuneType :=
  [.DOUBLE_DAMAGE, .HASTE, .ILLUSION, .INVISIBILITY,
   .REGENERATION, .ARCANE, .SHIELD, .WATER]

/-- Python `RuneType.from_modifier`: scan the members in order and return
the first whose value equals the modifier name, else `None`. -/
def RuneType.from_modifier (modifier_name : String) : Option RuneType :=
  RuneType.members.find? (fun rune => rune.value == modifier_name)

/-- Python `RuneType.is_rune_modifier`:
`modifier_name.startswith("modifier_rune_")`, modelled over the character
list of the string. -/
def RuneType.is_rune_modifier (modifier_name : String) : Bool :=
  "modifier_rune_".toList.isPrefixOf modifier_name.toList

/-- Each member's value starts with the rune-modifier prefix. -/
theorem runeValue_marked_as_rune (r : RuneType) :
    RuneType.is_rune_modifier r.value = true := by
  cases r <;> decide

/-- C10: whenever `from_modifier` returns a rune, `is_rune_modifier` holds of
the same string; and the converse fails: `"modifier_rune_bogus"` satisfies
`is_rune_modifier` while `from_modifier` returns `None`. -/
theorem c10_from_modifier_vs_is_rune_modifier :
    (∀ (s : String) (r : RuneType),
        RuneType.from_modifier s = some r → RuneType.is_rune_modifier s = true) ∧
      RuneType.is_rune_modifier "modifier_rune_bogus" = true ∧
      RuneType.from_modifier "modifier_rune_bogus" = none := by
  refine ⟨?_, by decide, by rfl⟩
  intro s r hfind
  have hp := List.find?_some hfind
  have hs : r.value = s := by
    simpa using hp
  rw [← hs]
  exact runeValue_marked_as_rune r

/-- Witness for C10: the universally quantified part applied at a concrete
modifier string. -/
theorem c10_witness :
    RuneType.is_rune_modifier "modifier_rune_haste" = true :=
  c10_from_modifier_vs_is_rune_modifier.1 "modifier_rune_haste" RuneType.HASTE rfl

/-! ## Keyframe index (IndexBuilder, KeyframeLocator)

Modelled from the spec, section 4.1/4.2: the v2 `Parser.build_index` and
`Parser.find_keyframe` engine is not part of the Python sources in `src/`
(only its tests are), so the index builder and locator are reconstructed
from the specification's words: one walk over the stream emitting a
keyframe every time the running tick crosses a multiple of
`interval_ticks`; binary search replaced by its functional specification,
the greatest keyframe tick at or before the target, clamping to the
earliest keyframe when the target precedes it. -/

/-- A keyframe of the seek index; only the tick matters for the claims. -/
structure Keyframe where
  tick : Nat
deriving DecidableEq, Repr

/-- Modelled from the spec: one step of `build_index`. A keyframe is
emitted when the running tick enters a new `interval`-sized bucket
(`tick / interval` strictly exceeds the bucket of the last emitted
keyframe); the first stream record always seeds a keyframe. -/
def buildKeyframes (interval : Nat) : Option Nat → List Nat → List Keyframe
  | _, [] => []
  | none, t :: rest => ⟨t⟩ :: buildKeyframes interval (some (t / interval)) rest
  | some lb, t :: rest =>
      if lb < t / interval then
        ⟨t⟩ :: buildKeyframes interval (some (t / interval)) rest
      else
        buildKeyframes interval (some lb) rest

/-- Modelled from the spec: `build_index(interval_ticks)` over the stream's
tick sequence, returning the ordered keyframe list. -/
def build_index (interval : Nat) (ticks : List Nat) : List Keyframe :=
  buildKeyframes interval none ticks

/-- Every keyframe emitted from a `some lb` state lives in a bucket
strictly beyond `lb`. -/
theorem buildKeyframes_bucket_gt (interval : Nat) (ts : List Nat) :
    ∀ lb k, k ∈ buildKeyframes interval (some lb) ts → lb < k.tick / interval := by
  induction ts with
  | nil => intro lb k hk; simp [buildKeyframes] at hk
  | cons t rest ih =>
    intro lb k hk
    by_cases hlt : lb < t / interval
    · simp only [buildKeyframes, if_pos hlt, List.mem_cons] at hk
      rcases hk with rfl | hk
      · exact hlt
      · exact lt_trans hlt (ih _ _ hk)
    · simp only [buildKeyframes, if_neg hlt] at hk
      exact ih _ _ hk

/-- Keyframe ticks produced by the builder are strictly increasing,
whatever the starting state. -/
theorem buildKeyframes_ticks_sorted (interval : Nat) (ts : List Nat) :
    ∀ ob, ((buildKeyframes interval ob ts).map Keyframe.tick).Pairwise (· < ·) := by
  induction ts with
  | nil => intro ob; cases ob <;> simp [buildKeyframes]
  | cons t rest ih =>
    intro ob
    have hcons : ∀ l : List Nat,
        (∀ x ∈ l, t / interval < x / interval) → l.Pairwise (· < ·) →
        (t :: l).Pairwise (· < ·) := by
      intro l hbuck hpw
      refine List.pairwise_cons.mpr ⟨?_, hpw⟩
      intro x hx
      by_contra hle
      push_neg at hle
      exact absurd (Nat.div_le_div_right hle) (Nat.not_le_of_lt (hbuck x hx))
    cases ob with
    | none =>
      simp only [buildKeyframes, List.map_cons]
      refine hcons _ ?_ (ih _)
      intro x hx
      simp only [List.mem_map] at hx
      obtain ⟨k, hk, rfl⟩ := hx
      exact buildKeyframes_bucket_gt interval rest _ k hk
    | some lb =>
      by_cases hlt : lb < t / interval
      · simp only [buildKeyframes, if_pos hlt, List.map_cons]
        refine hcons _ ?_ (ih _)
        intro x hx
        simp only [List.mem_map] at hx
        obtain ⟨k, hk, rfl⟩ := hx
        exact buildKeyframes_bucket_gt interval rest _ k hk
      · simp only [buildKeyframes, if_neg hlt]
        exact ih _

/-- Doubling the keyframe interval never yields more keyframes: the coarse
builder's bucket is the fine builder's bucket halved, and a coarse bucket
change forces a fine bucket change. -/
theorem buildKeyframes_double_interval_le (interval : Nat) (ts : List Nat) :
    ∀ ob : Option Nat,
      (buildKeyframes (interval * 2) (ob.map (· / 2)) ts).length ≤
        (buildKeyframes interval ob ts).length := by
  induction ts with
  | nil => intro ob; cases ob <;> simp [buildKeyframes]
  | cons t rest ih =>
    intro ob
    have hdd : t / (interval * 2) = t / interval / 2 :=
      (Nat.div_div_eq_div_mul t interval 2).symm
    cases ob with
    | none =>
      simp only [Option.map_none', buildKeyframes, List.length_cons, hdd]
      have := ih (some (t / interval))
      simp only [Option.map_some'] at this
      omega
    | some lb =>
      simp only [Option.map_some', buildKeyframes, hdd]
      by_cases hf : lb < t / interval
      · by_cases hc : lb / 2 < t / interval / 2
        · simp only [if_pos hf, if_pos hc, List.length_cons]
          have := ih (some (t / interval))
          simp only [Option.map_some'] at this
          omega
        · have heq : lb / 2 = t / interval / 2 := by
            have h1 : lb / 2 ≤ t / interval / 2 :=
              Nat.div_le_div_right (Nat.le_of_lt hf)
            omega
          simp only [if_pos hf, if_neg hc, List.length_cons]
          rw [heq]
          have := ih (some (t / interval))
          simp only [Option.map_some'] at this
          omega
      · have hc : ¬ lb / 2 < t / interval / 2 := by
          have : t / interval / 2 ≤ lb / 2 :=
            Nat.div_le_div_right (Nat.le_of_not_lt hf)
          omega
        simp only [if_neg hf, if_neg hc]
        have := ih (some lb)
        simp only [Option.map_some'] at this
        exact this

/-- C3 counterexample: over the one-record stream `[0]`, halving the
interval from 3600 to 1800 leaves the keyframe count at 1; it does not
strictly increase it. -/
theorem c3_counterexample :
    ¬ ((build_index 3600 [0]).length < (build_index 1800 [0]).length) := by
  decide

/-- C3 (amended): for every interval and stream the keyframe ticks are
strictly increasing, and halving the interval never decreases the number
of keyframes produced (strict increase can fail, e.g. on `[0]`). -/
theorem c3_build_index_sorted_halving_monotone (interval : Nat) (ticks : List Nat) :
    ((build_index interval ticks).map Keyframe.tick).Pairwise (· < ·) ∧
      (build_index (interval * 2) ticks).length ≤ (build_index interval ticks).length := by
  constructor
  · exact buildKeyframes_ticks_sorted interval ticks none
  · have := buildKeyframes_double_interval_le interval ticks none
    simpa [build_index] using this

/-- Result shape of `find_keyframe`. -/
structure FindKeyframeResult where
  success : Bool
  keyframe : Option Keyframe
  exact : Bool
deriving DecidableEq, Repr

/-- The last keyframe in list order whose tick is at most `target`
(on a tick-sorted list, the greatest such keyframe). -/
def last_le (target : Nat) : List Keyframe → Option Keyframe
  | [] => none
  | k :: rest =>
      match last_le target rest with
      | some k' => some k'
      | none => if k.tick ≤ target then some k else none

/-- Modelled from the spec: `find_keyframe(index, target_tick)`. Fails on an
empty index; otherwise returns the greatest keyframe with tick ≤ target,
clamping to the earliest keyframe when the target precedes it, with
`exact` true iff some keyframe's tick equals the target. -/
def find_keyframe (keyframes : List Keyframe) (target : Nat) : FindKeyframeResult :=
  match keyframes with
  | [] => { success := false, keyframe := none, exact := false }
  | k0 :: rest =>
      { success := true
        keyframe := some ((last_le target (k0 :: rest)).getD k0)
        exact := (k0 :: rest).any (fun k => k.tick == target) }


/-- A keyframe returned by `last_le` belongs to the list and meets the bound. -/
theorem last_le_mem_le (target : Nat) :
    ∀ (kfs : List Keyframe) (k : Keyframe),
      last_le target kfs = some k → k ∈ kfs ∧ k.tick ≤ target := by
  intro kfs
  induction kfs with
  | nil => intro k h; simp [last_le] at h
  | cons x rest ih =>
    intro k h
    cases hres : last_le target rest with
    | some k' =>
      simp only [last_le, hres] at h
      have hk : k' = k := Option.some.inj h
      obtain ⟨hm, hle⟩ := ih k' hres
      rw [← hk]
      exact ⟨List.mem_cons_of_mem x hm, hle⟩
    | none =>
      simp only [last_le, hres] at h
      by_cases hx : x.tick ≤ target
      · rw [if_pos hx] at h
        cases h
        exact ⟨List.mem_cons_self x rest, hx⟩
      · rw [if_neg hx] at h
        cases h

/-- When `last_le` finds nothing, every keyframe lies beyond the target. -/
theorem last_le_none (target : Nat) :
    ∀ kfs : List Keyframe,
      last_le target kfs = none → ∀ k ∈ kfs, target < k.tick := by
  intro kfs
  induction kfs with
  | nil => intro _ k hk; simp at hk
  | cons x rest ih =>
    intro h k hk
    cases hres : last_le target rest with
    | some k' => simp [last_le, hres] at h
    | none =>
      simp only [last_le, hres] at h
      by_cases hx : x.tick ≤ target
      · rw [if_pos hx] at h; cases h
      · rcases List.mem_cons.mp hk with rfl | hm
        · exact Nat.lt_of_not_le hx
        · exact ih hres k hm

/-- Conversely, if every keyframe lies beyond the target, `last_le` finds
nothing. -/
theorem last_le_eq_none (target : Nat) :
    ∀ kfs : List Keyframe,
      (∀ k ∈ kfs, target < k.tick) → last_le target kfs = none := by
  intro kfs
  induction kfs with
  | nil => intro _; rfl
  | cons x rest ih =>
    intro h
    have hrest : last_le target rest = none :=
      ih (fun k hk => h k (List.mem_cons_of_mem x hk))
    have hx : ¬ x.tick ≤ target :=
      Nat.not_le_of_lt (h x (List.mem_cons_self x rest))
    simp [last_le, hrest, if_neg hx]

/-- On a tick-sorted list, `last_le` dominates every qualifying keyframe. -/
theorem last_le_greatest (target : Nat) :
    ∀ (kfs : List Keyframe) (k : Keyframe),
      (kfs.map Keyframe.tick).Pairwise (· < ·) →
      last_le target kfs = some k →
      ∀ k' ∈ kfs, k'.tick ≤ target → k'.tick ≤ k.tick := by
  intro kfs
  induction kfs with
  | nil => intro k _ _ k' hk'; simp at hk'
  | cons x rest ih =>
    intro k hsorted h k' hk' hk'le
    simp only [List.map_cons, List.pairwise_cons] at hsorted
    obtain ⟨hx_lt, hrest_pw⟩ := hsorted
    cases hres : last_le target rest with
    | some kr =>
      simp only [last_le, hres] at h
      have hk : kr = k := Option.some.inj h
      rw [← hk]
      rcases List.mem_cons.mp hk' with rfl | hm
      · have hkmem := (last_le_mem_le target rest kr hres).1
        exact Nat.le_of_lt (hx_lt kr.tick (List.mem_map_of_mem Keyframe.tick hkmem))
      · exact ih kr hrest_pw hres k' hm hk'le
    | none =>
      simp only [last_le, hres] at h
      by_cases hx : x.tick ≤ target
      · rw [if_pos hx] at h
        cases h
        rcases List.mem_cons.mp hk' with rfl | hm
        · exact Nat.le_refl _
        · exact absurd hk'le
            (Nat.not_le_of_lt (last_le_none target rest hres k' hm))
      · rw [if_neg hx] at h
        cases h

/-- C1: on a nonempty, tick-sorted keyframe index, `find_keyframe` succeeds;
`exact` is true iff some keyframe's tick equals the target; the returned
keyframe dominates every keyframe with tick ≤ target (and itself meets the
bound whenever any keyframe does); and a target before the first keyframe
clamps to that earliest keyframe instead of failing. -/
theorem c1_find_keyframe (k0 : Keyframe) (rest : List Keyframe) (target : Nat)
    (hsorted : ((k0 :: rest).map Keyframe.tick).Pairwise (· < ·)) :
    (find_keyframe (k0 :: rest) target).success = true ∧
      ((find_keyframe (k0 :: rest) target).exact = true ↔
        ∃ k ∈ k0 :: rest, k.tick = target) ∧
      (∃ k, (find_keyframe (k0 :: rest) target).keyframe = some k ∧
        k ∈ k0 :: rest ∧
        ∀ k' ∈ k0 :: rest, k'.tick ≤ target →
          k'.tick ≤ k.tick ∧ k.tick ≤ target) ∧
      (target < k0.tick →
        (find_keyframe (k0 :: rest) target).keyframe = some k0) := by
  refine ⟨rfl, ?_, ?_, ?_⟩
  · simp [find_keyframe, List.any_eq_true, beq_iff_eq]
  · cases hres : last_le target (k0 :: rest) with
    | some k =>
      refine ⟨k, ?_, ?_, ?_⟩
      · simp [find_keyframe, hres]
      · exact (last_le_mem_le target _ k hres).1
      · intro k' hk' hk'le
        exact ⟨last_le_greatest target _ k hsorted hres k' hk' hk'le,
          (last_le_mem_le target _ k hres).2⟩
    | none =>
      refine ⟨k0, ?_, List.mem_cons_self k0 rest, ?_⟩
      · simp [find_keyframe, hres]
      · intro k' hk' hk'le
        exact absurd hk'le
          (Nat.not_le_of_lt (last_le_none target _ hres k' hk'))
  · intro hclamp
    have hall : ∀ k ∈ k0 :: rest, target < k.tick := by
      intro k hk
      rcases List.mem_cons.mp hk with rfl | hm
      · exact hclamp
      · simp only [List.map_cons, List.pairwise_cons] at hsorted
        exact lt_trans hclamp
          (hsorted.1 k.tick (List.mem_map_of_mem Keyframe.tick hm))
    have hres := last_le_eq_none target (k0 :: rest) hall
    simp [find_keyframe, hres]

/-- Witness for C1: the theorem applied to the concrete index
`[0, 1800, 3600]` and target 5000. -/
theorem c1_witness :
    (find_keyframe [⟨0⟩, ⟨1800⟩, ⟨3600⟩] 5000).success = true ∧
      ((find_keyframe [⟨0⟩, ⟨1800⟩, ⟨3600⟩] 5000).exact = true ↔
        ∃ k ∈ [(⟨0⟩ : Keyframe), ⟨1800⟩, ⟨3600⟩], k.tick = 5000) ∧
      (∃ k, (find_keyframe [⟨0⟩, ⟨1800⟩, ⟨3600⟩] 5000).keyframe = some k ∧
        k ∈ [(⟨0⟩ : Keyframe), ⟨1800⟩, ⟨3600⟩] ∧
        ∀ k' ∈ [(⟨0⟩ : Keyframe), ⟨1800⟩, ⟨3600⟩], k'.tick ≤ 5000 →
          k'.tick ≤ k.tick ∧ k.tick ≤ 5000) ∧
      (5000 < (⟨0⟩ : Keyframe).tick →
        (find_keyframe [⟨0⟩, ⟨1800⟩, ⟨3600⟩] 5000).keyframe = some ⟨0⟩) :=
  c1_find_keyframe ⟨0⟩ [⟨1800⟩, ⟨3600⟩] 5000 (by decide)

/-! ## Snapshot assembly (EntityStateReconstructor + SnapshotAssembler)

Modelled from the spec, section 4.3: the v2 `Parser.snapshot` engine is not
part of the Python sources in `src/` (only its tests and the caching test
wrapper `tests/caching_parser.py` are). The reconstructed per-entity state
at a tick is abstracted as a function from ticks to the list of hero
entities the reconstructor would produce; the assembler projects it,
excluding clone/illusion entities unless `include_illusions` is set. -/

/-- An ability as it appears in a hero snapshot. -/
structure AbilityState where
  slot : Nat
  level : Nat
  is_ultimate : Bool
deriving DecidableEq, Repr

/-- Modelled from the spec: `Ability.is_maxed`, level ≥ 4 for a regular
ability and level ≥ 3 for an ultimate. -/
def AbilityState.is_maxed (a : AbilityState) : Bool :=
  if a.is_ultimate then 3 ≤ a.level else 4 ≤ a.level

/-- A hero entity as reconstructed at one tick. -/
structure HeroState where
  player_id : Nat
  level : Nat
  is_clone : Bool
  is_illusion : Bool
  abilities : List AbilityState
deriving DecidableEq, Repr

/-- A real (non-clone, non-illusion) hero. -/
def HeroState.is_real (h : HeroState) : Bool :=
  !h.is_clone && !h.is_illusion

/-- A parse session: one demo file plus the reconstructor, abstracted as
the hero-entity table it yields at each tick, and the player count of the
match. -/
structure Session where
  demo_path : String
  entitiesAt : Nat → List HeroState
  numPlayers : Nat

/-- Modelled from the spec: `snapshot(tick, include_illusions)`; clones and
illusions are excluded from the default projection. -/
def snapshot (s : Session) (tick : Nat) (include_illusions : Bool) : List HeroState :=
  if include_illusions then s.entitiesAt tick
  else (s.entitiesAt tick).filter HeroState.is_real

/-- Splitting a list by a boolean predicate preserves its length. -/
theorem length_filter_add_length_not_filter (l : List HeroState) (p : HeroState → Bool) :
    (l.filter p).length + (l.filter (fun h => !p h)).length = l.length := by
  induction l with
  | nil => rfl
  | cons x rest ih =>
    cases hx : p x <;> simp [List.filter_cons, hx, ← ih] <;> omega

/-- C2: when the reconstructed state holds exactly `numPlayers` real heroes,
`snapshot(tick, include_illusions=false)` returns exactly that many entries,
all unflagged; `snapshot(tick, include_illusions=true)` returns at least as
many, and the entries beyond the real heroes are exactly the flagged ones. -/
theorem c2_snapshot_illusions (s : Session) (tick : Nat)
    (hplayers : ((s.entitiesAt tick).filter HeroState.is_real).length = s.numPlayers) :
    (snapshot s tick false).length = s.numPlayers ∧
      (∀ h ∈ snapshot s tick false, h.is_clone = false ∧ h.is_illusion = false) ∧
      s.numPlayers ≤ (snapshot s tick true).length ∧
      ((snapshot s tick true).filter
          (fun h => h.is_clone || h.is_illusion)).length
        = (snapshot s tick true).length - s.numPlayers := by
  refine ⟨?_, ?_, ?_, ?_⟩
  · simpa [snapshot] using hplayers
  · intro h hmem
    have := List.of_mem_filter (by simpa [snapshot] using hmem)
    simp only [HeroState.is_real, Bool.and_eq_true, Bool.not_eq_true'] at this
    exact this
  · rw [← hplayers]
    simpa [snapshot] using List.length_filter_le HeroState.is_real (s.entitiesAt tick)
  · have hsplit :=
      length_filter_add_length_not_filter (s.entitiesAt tick) HeroState.is_real
    have hform : ∀ h : HeroState, (h.is_clone || h.is_illusion) = !h.is_real := by
      intro h
      simp [HeroState.is_real]
    simp only [snapshot, if_pos, if_neg]
    calc ((s.entitiesAt tick).filter (fun h => h.is_clone || h.is_illusion)).length
        = ((s.entitiesAt tick).filter (fun h => !h.is_real)).length := by
          simp only [hform]
      _ = (s.entitiesAt tick).length - s.numPlayers := by omega

/-- A concrete reconstructed hero table: two real heroes and one illusion. -/
def demoHeroes : List HeroState :=
  [⟨0, 5, false, false, [⟨0, 4, false⟩]⟩,
   ⟨1, 6, false, false, [⟨5, 3, true⟩]⟩,
   ⟨0, 5, false, true, []⟩]

/-- A concrete two-player session whose reconstructor always yields
`demoHeroes`. -/
def demoSession : Session :=
  ⟨"demo.dem", fun _ => demoHeroes, 2⟩

/-- Witness for C2: the theorem applied to the concrete session at tick
30000. -/
theorem c2_witness :
    (snapshot demoSession 30000 false).length = demoSession.numPlayers ∧
      (∀ h ∈ snapshot demoSession 30000 false,
        h.is_clone = false ∧ h.is_illusion = false) ∧
      demoSession.numPlayers ≤ (snapshot demoSession 30000 true).length ∧
      ((snapshot demoSession 30000 true).filter
          (fun h => h.is_clone || h.is_illusion)).length
        = (snapshot demoSession 30000 true).length - demoSession.numPlayers :=
  c2_snapshot_illusions demoSession 30000 (by decide)

/-- C7: for every ability of every hero in a snapshot, `is_maxed` holds iff
the ability is a non-ultimate at level ≥ 4 or an ultimate at level ≥ 3. -/
theorem c7_is_maxed (s : Session) (tick : Nat) (inc : Bool)
    (h : HeroState) (a : AbilityState)
    (_hh : h ∈ snapshot s tick inc) (_ha : a ∈ h.abilities) :
    a.is_maxed = true ↔
      (4 ≤ a.level ∧ a.is_ultimate = false) ∨
        (3 ≤ a.level ∧ a.is_ultimate = true) := by
  cases hu : a.is_ultimate <;> simp [AbilityState.is_maxed, hu]

/-- Witness for C7: the theorem applied to the first demo hero's first
ability. -/
theorem c7_witness :
    (⟨0, 4, false⟩ : AbilityState).is_maxed = true ↔
      (4 ≤ (⟨0, 4, false⟩ : AbilityState).level ∧
          (⟨0, 4, false⟩ : AbilityState).is_ultimate = false) ∨
        (3 ≤ (⟨0, 4, false⟩ : AbilityState).level ∧
          (⟨0, 4, false⟩ : AbilityState).is_ultimate = true) :=
  c7_is_maxed demoSession 30000 false ⟨0, 5, false, false, [⟨0, 4, false⟩]⟩
    ⟨0, 4, false⟩ (by decide) (by decide)

/-! ## Snapshot caching (tests/caching_parser.py)

The caching wrapper in `tests/caching_parser.py` memoizes `snapshot`
results in a global map keyed by `(demo_path, target_tick,
include_illusions)`; the underlying snapshot itself is modelled from the
spec as the pure projection above. -/

/-- The global snapshot cache: key `(demo_path, target_tick,
include_illusions)` to cached result. -/
def SnapshotCache : Type :=
  List ((String × Nat × Bool) × List HeroState)

/-- Method `Parser.snapshot` of the caching wrapper: return the cached result if
the key is present, otherwise compute the snapshot and store it. -/
def snapshotCached (s : Session) (cache : SnapshotCache)
    (tick : Nat) (inc : Bool) : List HeroState × SnapshotCache :=
  match List.lookup (s.demo_path, tick, inc) cache with
  | some r => (r, cache)
  | none =>
      (snapshot s tick inc, ((s.demo_path, tick, inc), snapshot s tick inc) :: cache)

/-- C9: two successive `snapshot` calls with the same tick and
`include_illusions` flag on the same session return equal structures, and
on a cache with no entry for the key the returned structure is exactly the
pure snapshot of the (session, tick) pair. -/
theorem c9_snapshot_deterministic (s : Session) (cache : SnapshotCache)
    (tick : Nat) (inc : Bool) :
    (snapshotCached s (snapshotCached s cache tick inc).2 tick inc).1
        = (snapshotCached s cache tick inc).1 ∧
      (List.lookup (s.demo_path, tick, inc) cache = none →
        (snapshotCached s cache tick inc).1 = snapshot s tick inc) := by
  constructor
  · cases hres : List.lookup (s.demo_path, tick, inc) cache with
    | some r => simp [snapshotCached, hres]
    | none => simp [snapshotCached, hres, List.lookup]
  · intro hres
    simp [snapshotCached, hres]

/-- Witness for C9: the theorem applied to the concrete session and the
empty cache. -/
theorem c9_witness :
    (snapshotCached demoSession
          (snapshotCached demoSession [] 30000 false).2 30000 false).1
        = (snapshotCached demoSession [] 30000 false).1 ∧
      (List.lookup (demoSession.demo_path, 30000, false) ([] : SnapshotCache) = none →
        (snapshotCached demoSession [] 30000 false).1
          = snapshot demoSession 30000 false) :=
  c9_snapshot_deterministic demoSession [] 30000 false

/-! ## Range extraction (RangeExtractor)

Modelled from the spec, section 4.4: `Parser.parse_range` is not part of
the Python sources in `src/` (only its tests are). One message category is
filtered to the `[start, end]` tick window; string-table indices are
resolved through the stream's resolver with an `unknown_<id>` sentinel on
failure; `game_time` is seconds relative to the match-start tick. -/

/-- A decoded stream record of one message category. -/
structure StreamRecord where
  tick : Nat
  category : Nat
  actor_idx : Nat
  target_idx : Nat
deriving DecidableEq, Repr

/-- An entry returned by the range extractor. -/
structure RangeEntry where
  tick : Nat
  actor_name : String
  target_name : String
  game_time : Int
deriving DecidableEq, Repr

/-- Modelled from the spec: resolve a string-table index, substituting the
`unknown_<id>` sentinel when the lookup fails. -/
def resolveName (resolver : Nat → Option String) (idx : Nat) : String :=
  match resolver idx with
  | some n => n
  | none => "unknown_" ++ toString idx

/-- Modelled from the spec: `parse_range(start_tick, end_tick)` over one
message category, with name resolution and `game_time` computation. -/
def parse_range (resolver : Nat → Option String) (match_start : Nat)
    (records : List StreamRecord)
    (category start_tick end_tick : Nat) : List RangeEntry :=
  (records.filter (fun r =>
      r.category == category
        && decide (start_tick ≤ r.tick) && decide (r.tick ≤ end_tick))).map
    (fun r =>
      { tick := r.tick
        actor_name := resolveName resolver r.actor_idx
        target_name := resolveName resolver r.target_idx
        game_time := ((r.tick : Int) - (match_start : Int)) / 30 })

/-- C6: every entry returned by the range extractor over `[start, end]` has
`start ≤ entry.tick ≤ end`. -/
theorem c6_parse_range_tick_bounds (resolver : Nat → Option String)
    (match_start : Nat) (records : List StreamRecord)
    (category start_tick end_tick : Nat) (e : RangeEntry)
    (he : e ∈ parse_range resolver match_start records category start_tick end_tick) :
    start_tick ≤ e.tick ∧ e.tick ≤ end_tick := by
  simp only [parse_range, List.mem_map, List.mem_filter, Bool.and_eq_true,
    decide_eq_true_eq] at he
  obtain ⟨r, ⟨_, ⟨_, h1⟩, h2⟩, rfl⟩ := he
  exact ⟨h1, h2⟩

/-- Witness for C6: the theorem applied to a one-record stream inside the
window. -/
theorem c6_witness :
    25000 ≤ (⟨25500, "npc_dota_hero_axe", "npc_dota_hero_axe", 183⟩ : RangeEntry).tick ∧
      (⟨25500, "npc_dota_hero_axe", "npc_dota_hero_axe", 183⟩ : RangeEntry).tick ≤ 35000 :=
  c6_parse_range_tick_bounds
    (fun i => if i == 3 then some "npc_dota_hero_axe" else none)
    20000 [⟨25500, 1, 3, 3⟩] 1 25000 35000
    ⟨25500, "npc_dota_hero_axe", "npc_dota_hero_axe", 183⟩ (by decide)

/-! ## Respawn derivation (EventSynthesizer)

Modelled from the spec, section 4.5: `derive_respawn_events` is not part of
the Python sources in `src/` (only its tests are). The respawn duration is
a non-decreasing step function of hero level; the level comes from the
death entry itself when present, falling back to a caller-supplied override
map and then to level 1; `respawn_tick = death_tick + duration_in_ticks`. -/

/-- Modelled from the spec: simulation ticks per second. -/
def TICKS_PER_SECOND : Nat := 30

/-- Modelled from the spec: the respawn-time step table in seconds, indexed
by hero level 1..30; only its non-decreasing shape is specified. -/
def RESPAWN_TIMES : List Nat :=
  [6, 8, 10, 14, 16, 26, 28, 30, 32, 34,
   36, 44, 46, 48, 50, 52, 54, 65, 70, 75,
   80, 85, 90, 95, 100, 100, 100, 100, 100, 100]

/-- Modelled from the spec: respawn duration in seconds for a hero level,
clamped to the table's range. -/
def respawn_duration (level : Nat) : Nat :=
  RESPAWN_TIMES.getD (min (level - 1) (RESPAWN_TIMES.length - 1)) 0

/-- A hero-death combat-log entry as consumed by the respawn derivation;
`target_hero_level = 0` means the source event carries no level. -/
structure DeathEntry where
  tick : Nat
  target_name : String
  target_hero_level : Nat
deriving DecidableEq, Repr

/-- A derived respawn event. -/
structure HeroRespawnEvent where
  hero_name : String
  death_tick : Nat
  hero_level : Nat
  respawn_duration : Nat
  respawn_tick : Nat
deriving DecidableEq, Repr

/-- Modelled from the spec: derive one respawn event from a death entry.
The entry's own level wins when present; the override map is consulted only
when the source carries no level, defaulting to level 1. -/
def mkRespawnEvent (hero_levels : List (String × Nat)) (e : DeathEntry) :
    HeroRespawnEvent :=
  let lvl :=
    if 0 < e.target_hero_level then e.target_hero_level
    else (List.lookup e.target_name hero_levels).getD 1
  let dur := respawn_duration lvl
  { hero_name := e.target_name
    death_tick := e.tick
    hero_level := lvl
    respawn_duration := dur
    respawn_tick := e.tick + dur * TICKS_PER_SECOND }

/-- Modelled from the spec: `derive_respawn_events(combat_log, hero_levels)`
over the hero-death entries. -/
def derive_respawn_events (hero_levels : List (String × Nat))
    (deaths : List DeathEntry) : List HeroRespawnEvent :=
  deaths.map (mkRespawnEvent hero_levels)

/-- The respawn table is monotone position by position. -/
theorem respawn_times_table_monotone :
    ∀ j, j < 30 → ∀ i, i ≤ j →
      RESPAWN_TIMES.getD i 0 ≤ RESPAWN_TIMES.getD j 0 := by
  decide

/-- The function `respawn_duration` is non-decreasing in hero level. -/
theorem respawn_duration_monotone (l1 l2 : Nat) (h : l1 ≤ l2) :
    respawn_duration l1 ≤ respawn_duration l2 := by
  have hlen : RESPAWN_TIMES.length - 1 = 29 := by rfl
  unfold respawn_duration
  rw [hlen]
  refine respawn_times_table_monotone (min (l2 - 1) 29) ?_ (min (l1 - 1) 29) ?_
  · omega
  · omega

/-- C4: an explicit level override never changes a respawn whose source
entry already carries a level (per entry and over whole entry lists), and
the respawn duration is non-decreasing in hero level. -/
theorem c4_respawn_levels (hero_levels : List (String × Nat)) :
    (∀ e : DeathEntry, 0 < e.target_hero_level →
        mkRespawnEvent hero_levels e = mkRespawnEvent [] e) ∧
      (∀ deaths : List DeathEntry, (∀ d ∈ deaths, 0 < d.target_hero_level) →
        derive_respawn_events hero_levels deaths
          = derive_respawn_events [] deaths) ∧
      (∀ l1 l2 : Nat, l1 ≤ l2 → respawn_duration l1 ≤ respawn_duration l2) := by
  have hentry : ∀ e : DeathEntry, 0 < e.target_hero_level →
      mkRespawnEvent hero_levels e = mkRespawnEvent [] e := by
    intro e he
    simp [mkRespawnEvent, if_pos he]
  refine ⟨hentry, ?_, fun l1 l2 h => respawn_duration_monotone l1 l2 h⟩
  intro deaths hall
  unfold derive_respawn_events
  exact List.map_congr_left (fun d hd => hentry d (hall d hd))

/-- Witness for C4: the theorem applied at an override map that tries to
force level 99 on an entry that already carries level 12, and at the
levels 12 ≤ 15. -/
theorem c4_witness :
    mkRespawnEvent [("npc_dota_hero_axe", 99)] ⟨1000, "npc_dota_hero_axe", 12⟩
        = mkRespawnEvent [] ⟨1000, "npc_dota_hero_axe", 12⟩ ∧
      respawn_duration 12 ≤ respawn_duration 15 :=
  ⟨(c4_respawn_levels [("npc_dota_hero_axe", 99)]).1
      ⟨1000, "npc_dota_hero_axe", 12⟩ (by decide),
    (c4_respawn_levels [("npc_dota_hero_axe", 99)]).2.2 12 15 (by decide)⟩

/-! ## Hero-level injection (EventSynthesizer)

Modelled from the spec, section 4.5: combat-log entries natively missing
attacker/target hero levels are backfilled by querying the reconstructor
at the entry's tick; a non-hero actor yields no level and the field stays
at 0. The reconstructor query is abstracted as a function returning `none`
for non-hero actors. -/

/-- A combat-log entry restricted to the fields the injection touches;
a level of 0 means the source message carried no level. -/
structure CombatLogEntry where
  tick : Nat
  attacker_name : String
  target_name : String
  attacker_hero_level : Nat
  target_hero_level : Nat
deriving DecidableEq, Repr

/-- Modelled from the spec: backfill the attacker/target hero levels of one
entry from the reconstructed entity state at the entry's tick; `levelAt`
returns `none` when the named actor is not a hero. -/
def inject_hero_levels (levelAt : Nat → String → Option Nat)
    (e : CombatLogEntry) : CombatLogEntry :=
  { e with
    attacker_hero_level :=
      if e.attacker_hero_level == 0 then (levelAt e.tick e.attacker_name).getD 0
      else e.attacker_hero_level
    target_hero_level :=
      if e.target_hero_level == 0 then (levelAt e.tick e.target_name).getD 0
      else e.target_hero_level }

/-- C5: for an entry natively missing a level, injection sets the field to
the reconstructed entity's level at the entry's tick, and leaves it at 0
when the actor is not a hero; a natively present level is untouched. -/
theorem c5_inject_hero_levels (levelAt : Nat → String → Option Nat)
    (e : CombatLogEntry) :
    (e.attacker_hero_level = 0 →
        (inject_hero_levels levelAt e).attacker_hero_level
          = (levelAt e.tick e.attacker_name).getD 0) ∧
      (e.attacker_hero_level = 0 → levelAt e.tick e.attacker_name = none →
        (inject_hero_levels levelAt e).attacker_hero_level = 0) ∧
      (e.target_hero_level = 0 →
        (inject_hero_levels levelAt e).target_hero_level
          = (levelAt e.tick e.target_name).getD 0) ∧
      (e.target_hero_level = 0 → levelAt e.tick e.target_name = none →
        (inject_hero_levels levelAt e).target_hero_level = 0) ∧
      (e.attacker_hero_level ≠ 0 →
        (inject_hero_levels levelAt e).attacker_hero_level
          = e.attacker_hero_level) ∧
      (e.target_hero_level ≠ 0 →
        (inject_hero_levels levelAt e).target_hero_level
          = e.target_hero_level) := by
  refine ⟨?_, ?_, ?_, ?_, ?_, ?_⟩ <;> intro h0
  · simp [inject_hero_levels, h0]
  · intro hnone; simp [inject_hero_levels, h0, hnone]
  · simp [inject_hero_levels, h0]
  · intro hnone; simp [inject_hero_levels, h0, hnone]
  · simp [inject_hero_levels, h0]
  · simp [inject_hero_levels, h0]

/-- The reconstructor query of the concrete demo world: one known hero at
level 7; every other actor is not a hero. -/
def demoLevelAt : Nat → String → Option Nat :=
  fun _ name => if name == "npc_dota_hero_axe" then some 7 else none

/-- Witness for C5: a death entry at tick 40000 with no native levels, a
hero attacker and a non-hero target. -/
theorem c5_witness :
    (inject_hero_levels demoLevelAt
        ⟨40000, "npc_dota_hero_axe", "npc_dota_lycan_wolf4", 0, 0⟩).attacker_hero_level
      = (demoLevelAt 40000 "npc_dota_hero_axe").getD 0 ∧
    (inject_hero_levels demoLevelAt
        ⟨40000, "npc_dota_hero_axe", "npc_dota_lycan_wolf4", 0, 0⟩).target_hero_level
      = 0 :=
  ⟨(c5_inject_hero_levels demoLevelAt
      ⟨40000, "npc_dota_hero_axe", "npc_dota_lycan_wolf4", 0, 0⟩).1 rfl,
    (c5_inject_hero_levels demoLevelAt
      ⟨40000, "npc_dota_hero_axe", "npc_dota_lycan_wolf4", 0, 0⟩).2.2.2.1 rfl (by decide)⟩

/-! ## Result aggregation (ResultAggregator)

Modelled from the spec, section 4.6: the v2 `Parser.parse` facet
aggregation is not part of the Python sources in `src/` (the v1
`MantaParser.parse_header` in `manta_python.py` shows the raise-on-failure
pattern for a single facet, but the multi-facet aggregator exists only
behind its tests). Requested collectors run in one pass; any failure
aborts the whole call with a single error and no partial results;
unrequested facets stay `None`. Facet payloads are abstracted as `Nat`. -/

/-- The set of requested facets. -/
structure ParseRequest where
  header : Bool
  game_info : Bool
  combat_log : Bool
  entities : Bool
deriving DecidableEq, Repr

/-- The outcome each collector would produce on this stream pass. -/
structure CollectorOutcomes where
  header : Except String Nat
  game_info : Except String Nat
  combat_log : Except String Nat
  entities : Except String Nat

/-- The aggregate result: one shared success/error status plus one optional
field per facet. -/
structure ParseResult where
  success : Bool
  error : Option String
  header : Option Nat
  game_info : Option Nat
  combat_log : Option Nat
  entities : Option Nat
deriving DecidableEq, Repr

/-- The aborted call: one error, no partial results. -/
def failResult (m : String) : ParseResult :=
  { success := false, error := some m, header := none, game_info := none,
    combat_log := none, entities := none }

/-- Run one collector only when its facet is requested. -/
def runFacet (requested : Bool) (c : Except String Nat) :
    Except String (Option Nat) :=
  if requested then c.map some else .ok none

/-- Modelled from the spec: one aggregate parse call. All requested
collectors must succeed; the first failure aborts the call. -/
def parseAggregate (req : ParseRequest) (c : CollectorOutcomes) : ParseResult :=
  match runFacet req.header c.header with
  | .error m => failResult m
  | .ok h =>
    match runFacet req.game_info c.game_info with
    | .error m => failResult m
    | .ok g =>
      match runFacet req.combat_log c.combat_log with
      | .error m => failResult m
      | .ok cl =>
        match runFacet req.entities c.entities with
        | .error m => failResult m
        | .ok en =>
          { success := true, error := none, header := h, game_info := g,
            combat_log := cl, entities := en }

/-- C8: if any requested collector fails, the whole call fails, carries an
error, and populates no facet; and in a successful result every
unrequested facet is `None`. -/
theorem c8_aggregate_all_or_nothing (req : ParseRequest) (c : CollectorOutcomes) :
    (((req.header = true ∧ ∃ m, c.header = .error m) ∨
        (req.game_info = true ∧ ∃ m, c.game_info = .error m) ∨
        (req.combat_log = true ∧ ∃ m, c.combat_log = .error m) ∨
        (req.entities = true ∧ ∃ m, c.entities = .error m)) →
      (parseAggregate req c).success = false ∧
        (parseAggregate req c).error.isSome = true ∧
        (parseAggregate req c).header = none ∧
        (parseAggregate req c).game_info = none ∧
        (parseAggregate req c).combat_log = none ∧
        (parseAggregate req c).entities = none) ∧
      ((parseAggregate req c).success = true →
        (req.header = false → (parseAggregate req c).header = none) ∧
          (req.game_info = false → (parseAggregate req c).game_info = none) ∧
          (req.combat_log = false → (parseAggregate req c).combat_log = none) ∧
          (req.entities = false → (parseAggregate req c).entities = none)) := by
  rcases hH : runFacet req.header c.header with mH | vH
  · simp [parseAggregate, hH, failResult]
  · rcases hG : runFacet req.game_info c.game_info with mG | vG
    · simp [parseAggregate, hH, hG, failResult]
    · rcases hCL : runFacet req.combat_log c.combat_log with mCL | vCL
      · simp [parseAggregate, hH, hG, hCL, failResult]
      · rcases hE : runFacet req.entities c.entities with mE | vE
        · simp [parseAggregate, hH, hG, hCL, hE, failResult]
        · constructor
          · rintro (⟨hr, m, hc⟩ | ⟨hr, m, hc⟩ | ⟨hr, m, hc⟩ | ⟨hr, m, hc⟩)
            · rw [hr, hc] at hH; simp [runFacet, Except.map] at hH
            · rw [hr, hc] at hG; simp [runFacet, Except.map] at hG
            · rw [hr, hc] at hCL; simp [runFacet, Except.map] at hCL
            · rw [hr, hc] at hE; simp [runFacet, Except.map] at hE
          · intro _
            simp only [parseAggregate, hH, hG, hCL, hE]
            refine ⟨?_, ?_, ?_, ?_⟩
            · intro hr; rw [hr] at hH
              simp only [runFacet, Bool.false_eq_true, if_neg] at hH
              exact (Except.ok.inj hH).symm
            · intro hr; rw [hr] at hG
              simp only [runFacet, Bool.false_eq_true, if_neg] at hG
              exact (Except.ok.inj hG).symm
            · intro hr; rw [hr] at hCL
              simp only [runFacet, Bool.false_eq_true, if_neg] at hCL
              exact (Except.ok.inj hCL).symm
            · intro hr; rw [hr] at hE
              simp only [runFacet, Bool.false_eq_true, if_neg] at hE
              exact (Except.ok.inj hE).symm

/-- A concrete request asking for header and combat log only. -/
def demoRequest : ParseRequest :=
  ⟨true, false, true, false⟩

/-- Concrete collector outcomes where the combat-log collector fails. -/
def demoOutcomes : CollectorOutcomes :=
  ⟨.ok 1, .ok 2, .error "stream corrupt", .ok 4⟩

/-- Witness for C8: requesting a facet whose collector fails aborts the
whole call with no partial results. -/
theorem c8_witness :
    (parseAggregate demoRequest demoOutcomes).success = false ∧
      (parseAggregate demoRequest demoOutcomes).error.isSome = true ∧
      (parseAggregate demoRequest demoOutcomes).header = none ∧
      (parseAggregate demoRequest demoOutcomes).game_info = none ∧
      (parseAggregate demoRequest demoOutcomes).combat_log = none ∧
      (parseAggregate demoRequest demoOutcomes).entities = none :=
  (c8_aggregate_all_or_nothing demoRequest demoOutcomes).1
    (Or.inr (Or.inr (Or.inl ⟨rfl, "stream corrupt", rfl⟩)))
